import Mathlib

/-!
Shallow embedding of the kindle-utils log parser (src/log_parser.py) together
with theorems settling the frozen claims about its specification.

Conventions of the embedding:
  - Python ints are Lean Int (no overflow concerns: timestamps are epoch
    seconds and positions are small).
  - A Python value that may be None is an Option; Python truthiness of such a
    value (None and 0 are falsy) is pyTruthyOpt.
  - Python 2 cross-type comparisons involving None (None is smaller than every
    int) are modelled by the py-prefixed comparison helpers.
  - list.sort and sorted are modelled by List.insertionSort, which is a stable
    sort and therefore produces the same list as the stable CPython sort for
    the same (decidable, total) comparison.
-/

namespace LogParser

instance {ε α : Type} [DecidableEq ε] [DecidableEq α] : DecidableEq (Except ε α) := fun x y =>
  match x, y with
  | .ok a, .ok b => if h : a = b then isTrue (by simp [h]) else isFalse (by simp [h])
  | .error a, .error b => if h : a = b then isTrue (by simp [h]) else isFalse (by simp [h])
  | .ok _, .error _ => isFalse (by simp)
  | .error _, .ok _ => isFalse (by simp)

/-- log_parser.py lines 24-28: True if a and b are within fuzz seconds of
each other. -/
def EqualWithFuzz (a b fuzz : Int) : Bool :=
  a == b || decide (|a - b| < fuzz)

/-- log_parser.py lines 30-42: returns the unfuzzy matched value if value is
equal to ref, or to ref shifted by one hour, each within the default fuzz of
300 seconds; None otherwise.  The downward shift is only tried when
ref is larger than 3600. -/
def MatchWithFuzzByHour (ref value : Int) : Option Int :=
  if EqualWithFuzz ref value 300 then some ref
  else if ref > 3600 && EqualWithFuzz (ref - 3600) value 300 then some (ref - 3600)
  else if EqualWithFuzz (ref + 3600) value 300 then some (ref + 3600)
  else none

/-- The fuzz-matching predicate exactly as the specification words it: the two
durations differ by less than the tolerance, or differ by exactly a whole
number of hours within that same tolerance.  Written from the spec for
comparison with MatchWithFuzzByHour, which is written from the code. -/
def specFuzzMatched (ref value : Int) : Prop :=
  |ref - value| < 300 ∨ ∃ k : Int, |ref - value - 3600 * k| < 300

/-- log_parser.py lines 147-150: events in a books life. -/
inductive EType
  | PICK_UP
  | PUT_DOWN
  | OPEN
  | CLOSE
deriving DecidableEq, Repr

/-- Integer value of each event constant (log_parser.py lines 147-150),
used as the tie-break key when Python sorts the [ts, etype, data] lists. -/
def EType.val : EType → Int
  | .PICK_UP => 1
  | .PUT_DOWN => 2
  | .OPEN => 3
  | .CLOSE => 4

/-- One entry of KindleBook.events: the Python list [ts, event_type, position]
where position may be None. -/
structure BEvent where
  ts : Int
  etype : EType
  pos : Option Int
deriving DecidableEq, Repr

/-- Python 2 truthiness of an int-or-None value: None and 0 are falsy. -/
def pyTruthyOpt : Option Int → Bool
  | none => false
  | some n => n != 0

/-- Python 2 ordering of int-or-None values: None is smaller than every int. -/
def pyLtOpt : Option Int → Option Int → Bool
  | none, none => false
  | none, some _ => true
  | some _, none => false
  | some a, some b => a < b

/-- Python 2 comparison a >= b for int-or-None values (None below every int). -/
def pyGeOpt (a b : Option Int) : Bool :=
  !(pyLtOpt a b)

/-- Python 2 min of two int-or-None values. -/
def pyMinOpt (a b : Option Int) : Option Int :=
  if pyLtOpt a b || a == b then a else b

/-- Lexicographic order on [ts, etype, data] triples, matching how Python 2
compares the event lists in list.sort and sorted. -/
def eventLe (a b : BEvent) : Prop :=
  a.ts < b.ts ∨ (a.ts = b.ts ∧ (a.etype.val < b.etype.val ∨
    (a.etype.val = b.etype.val ∧ (pyLtOpt a.pos b.pos = true ∨ a.pos = b.pos))))

instance : DecidableRel eventLe := fun a b => by
  unfold eventLe; infer_instance

/-- Python sorted() over a list of events. -/
def sortEvents (l : List BEvent) : List BEvent :=
  l.insertionSort eventLe

namespace KindleBook

/-- log_parser.py line 154: minimum pickup time to count as a read. -/
def MIN_IN_HAND_SECS : Int := 2 * 60

/-- log_parser.py line 159: minimum pickup time to count as a read when
reading backwards. -/
def MIN_IN_HAND_REVERSE_SECS : Int := 10 * 60

/-- log_parser.py lines 169-183: coalescing append to a book event list.
If the last stored event is within 1 second of ts, or has kind match_old and
is within old_fuzz seconds, the last event is overwritten in place (earlier
timestamp, new kind, position slot untouched); otherwise a new event is
appended whose position is initialised from the previous last event. -/
def CoalesceLast (events : List BEvent) (ts : Int) (new_event : EType)
    (match_old : Option EType) (old_fuzz : Int) : List BEvent :=
  match events.getLast? with
  | none => events ++ [⟨ts, new_event, none⟩]
  | some last =>
    if EqualWithFuzz last.ts ts 1 then
      events.dropLast ++ [⟨min last.ts ts, new_event, last.pos⟩]
    else if (some last.etype == match_old) && EqualWithFuzz last.ts ts old_fuzz then
      events.dropLast ++ [⟨min last.ts ts, new_event, last.pos⟩]
    else
      events ++ [⟨ts, new_event, last.pos⟩]

/-- Helper for the Python statement self.events[-1][2] = position. -/
def setLastPos (events : List BEvent) (p : Option Int) : List BEvent :=
  match events.getLast? with
  | none => events
  | some last => events.dropLast ++ [{ last with pos := p }]

/-- log_parser.py lines 197-200.  The position argument is the already parsed
numeric position (the string parsing of _FixPosition is outside the claims);
none models an empty/absent (falsy) position. -/
def PickUp (events : List BEvent) (ts : Int) (position : Option Int) : List BEvent :=
  let es := CoalesceLast events ts .PICK_UP none 1
  if pyTruthyOpt position then setLastPos es position else es

/-- log_parser.py lines 202-203: PutDown never supplies a position. -/
def PutDown (events : List BEvent) (ts : Int) : List BEvent :=
  CoalesceLast events ts .PUT_DOWN (some .CLOSE) 15

/-- log_parser.py lines 205-208. -/
def Open (events : List BEvent) (ts : Int) (position : Option Int) : List BEvent :=
  let es := CoalesceLast events ts .OPEN none 1
  if pyTruthyOpt position then setLastPos es position else es

/-- log_parser.py lines 210-213. -/
def Close (events : List BEvent) (ts : Int) (position : Option Int) : List BEvent :=
  let es := CoalesceLast events ts .CLOSE none 1
  if pyTruthyOpt position then setLastPos es position else es

/-- One emitted read tuple (log_parser.py lines 240-244):
(pick_up_ts, pick_up_loc, put_down_ts, put_down_loc, cum_reading_time). -/
structure PyRead where
  ts0 : Option Int
  pos0 : Option Int
  ts1 : Option Int
  pos1 : Option Int
  secs : Int
deriving DecidableEq, Repr

/-- The continuation-gap test (read[0] - last[2]) < MIN_IN_HAND_SECS of
log_parser.py line 271.  Python would raise a TypeError when either side is
None; that case is unreachable for sequences produced by the trackers (a
nonempty rv forces a preceding PUT_DOWN with an int timestamp, and a read
reaching this test has accumulated time at least MIN_IN_HAND_SECS, which
requires first to be set), so it is mapped to false. -/
def gapLt (a b : Option Int) (n : Int) : Bool :=
  match a, b with
  | some x, some y => decide (x - y < n)
  | _, _ => false

/-- log_parser.py lines 253-282: acceptance and continuation-merge policy for
one candidate read. -/
def AppendRead (rv : List PyRead) (read : PyRead) : List PyRead :=
  let forwards := pyGeOpt read.pos1 read.pos0
  if read.secs < MIN_IN_HAND_SECS then rv
  else if forwards = false ∧ read.secs < MIN_IN_HAND_REVERSE_SECS then rv
  else
    match rv.getLast? with
    | none => rv ++ [read]
    | some last =>
      let continuing := last.pos1 == read.pos0 || gapLt read.ts0 last.ts1 MIN_IN_HAND_SECS
      if continuing && forwards then
        rv.dropLast ++ [⟨last.ts0, pyMinOpt last.pos0 read.pos0, read.ts1, read.pos1,
                         last.secs + read.secs⟩]
      else
        rv ++ [read]

/-- Accumulator of the fold in KindleBook.reads (log_parser.py lines 245-251):
rv, first, start, firstpos, latestpos, read_time, last. -/
structure RAcc where
  rv : List PyRead
  first : Option Int
  start : Option Int
  firstpos : Option Int
  latestpos : Option Int
  read_time : Int
  last : Option EType
deriving DecidableEq, Repr

/-- Processing of one event in the loop of log_parser.py lines 284-311.
In the CLOSE and PUT_DOWN branches start is always set when last is PICK_UP
or OPEN (both branches that set last also set start), so the getD 0 default
is never taken. -/
def readsStep (acc : RAcc) (e : BEvent) : RAcc :=
  match e.etype with
  | .PICK_UP =>
      { acc with start := some e.ts, first := some e.ts, firstpos := e.pos,
                 latestpos := none, read_time := 0, last := some .PICK_UP }
  | .OPEN =>
      let first := if pyTruthyOpt acc.first then acc.first else acc.start
      let setpos := !(pyTruthyOpt acc.firstpos) && pyTruthyOpt e.pos
      { acc with first,
                 firstpos := if setpos then e.pos else acc.firstpos,
                 latestpos := if setpos then e.pos else acc.latestpos,
                 start := some e.ts, last := some .OPEN }
  | .CLOSE =>
      let read_time :=
        if acc.last = some .PICK_UP ∨ acc.last = some .OPEN
        then acc.read_time + (e.ts - acc.start.getD 0) else acc.read_time
      { acc with read_time,
                 latestpos := if pyTruthyOpt e.pos then e.pos else acc.latestpos,
                 last := some .CLOSE }
  | .PUT_DOWN =>
      let read_time :=
        if acc.last = some .PICK_UP ∨ acc.last = some .OPEN
        then acc.read_time + (e.ts - acc.start.getD 0) else acc.read_time
      let latestpos := if pyTruthyOpt e.pos then e.pos else acc.latestpos
      { acc with rv := AppendRead acc.rv ⟨acc.first, acc.firstpos, some e.ts, latestpos, read_time⟩,
                 first := none, start := none, read_time := 0,
                 latestpos, last := some .PUT_DOWN }

/-- log_parser.py lines 238-314: the reads property, deriving the list of
reading sessions from a book event sequence. -/
def reads (events : List BEvent) : List PyRead :=
  let acc := (sortEvents events).foldl readsStep
    ⟨[], none, none, none, none, 0, none⟩
  if pyTruthyOpt acc.first then
    AppendRead acc.rv ⟨acc.first, acc.firstpos, none, acc.latestpos, acc.read_time⟩
  else acc.rv

/-- log_parser.py lines 215-223: merging a sorted incoming event sequence into
a books corpus-wide sequence.  The first component records whether the
backward-in-time check fired: the code reports it through logger.fatal, which
is the plain logging method critical (it writes a log record and returns; it
does not raise or exit), after which the events are extended regardless. -/
def UpdateEvents (self_events incoming : List BEvent) : Bool × List BEvent :=
  let events := sortEvents incoming
  match events with
  | [] => (false, self_events)
  | e :: _ =>
    let fatal := match self_events.getLast? with
      | some last => decide (e.ts < last.ts)
      | none => false
    (fatal, self_events ++ events)

end KindleBook

/-! Power-state duration accounting (KindleLog._StateTransition). -/

/-- The per-file power accounting owned by KindleLog: the current
power_state pair (ts, state), the transition list, and the per-state duration
mapping (a Python dict with default 0, modelled as a total function).  The
power_state pair is modelled as established (ts, state): _ParseFile sets it on
the first valid line of a file before any transition can occur. -/
structure PowerAcc where
  power_state : Int × String
  states : List (Int × String)
  state_durations : String → Int

/-- log_parser.py lines 662-673: record a transition at ts into new_state
(None or an empty, falsy, name keeps the current state).  The elapsed time
since the last transition is attributed to the state that was active before
the transition, keyed by that label. -/
def StateTransition (acc : PowerAcc) (ts : Int) (new_state : Option String) : PowerAcc :=
  let last_ts := acc.power_state.1
  let current := acc.power_state.2
  let ns := match new_state with
    | none => current
    | some s => if s = "" then current else s
  { power_state := (ts, ns)
    states := acc.states ++ [(ts, ns)]
    state_durations := fun s =>
      if s = current then acc.state_durations s + (ts - last_ts)
      else acc.state_durations s }

/-! Carried state, the per-file processor on timestamp-free files, and the
checkpoint loader. -/

/-- KindleLogState (log_parser.py lines 48-96), restricted to the fields the
claims touch: the name of the last fully processed file, the timestamp of the
last processed line, and the established power state.  The timezone and
jump-baseline fields are untouched by every code path modelled here. -/
structure KState where
  last_filename : Option String
  last_ts : Int
  power_state : Int × String
deriving DecidableEq, Repr

/-- The per-file outputs of KindleLog._ParseFile: _start, _end, states,
state_durations (snapshot as an association list in insertion order) and the
outgoing carried state. -/
structure FileOut where
  start : Option Int
  endTs : Int
  states : List (Int × String)
  state_durations : List (String × Int)
  outState : KState
deriving DecidableEq, Repr

/-- The two shapes of a line that carries no valid timestamp, distinguished by
how _ParseTimestamp (log_parser.py lines 370-381) treats them: for noTsMatch,
TS_REGEXP does not match the line, _ParseTimestamp returns -1 and the line is
skipped at the invalid-line check at line 392 before any state is touched;
for badFields, TS_REGEXP matches (six digits, colon, six digits) but the
fields are out of range (such as month 00), so datetime.strptime at line 375
raises ValueError, which nothing inside _ParseFile catches. -/
inductive InvalidLine
  | noTsMatch
  | badFields
deriving DecidableEq, Repr

/-- The two ValueError sites reachable while parsing a file that has zero
valid-timestamp lines: the strptime failure inside _ParseTimestamp (line
375), and the explicit No-valid-lines check after the loop (lines 416-417). -/
inductive ParseError
  | badTimestamp
  | noValidLines
deriving DecidableEq, Repr

/-- KindleLog._ParseFile (log_parser.py lines 383-423) specialised to a file
none of whose lines carries a valid timestamp.  The loop aborts with the
strptime ValueError at the first badFields line, with the carried state
untouched (self.ts assignment at line 389 is the first statement of the loop
body that can raise, before any state mutation); a noTsMatch line is skipped
and mutates nothing.  If the loop completes, lines 416-423 run: the
No-valid-lines ValueError is raised only when the carried last_ts is still
the cold-start value -1; otherwise the file is accepted covering the empty
range [last_ts, last_ts], a final state transition is recorded, and
last_filename is updated to this file. -/
def ParseFileNoValidTs (filename : String) (st : KState) :
    List InvalidLine → Except ParseError FileOut
  | .badFields :: _ => .error .badTimestamp
  | .noTsMatch :: rest => ParseFileNoValidTs filename st rest
  | [] =>
    if st.last_ts < 0 then .error .noValidLines
    else
      .ok { start := none
            endTs := st.last_ts
            states := [(st.last_ts, st.power_state.2)]
            state_durations := [(st.power_state.2, st.last_ts - st.power_state.1)]
            outState := { st with
                          last_filename := some filename
                          power_state := (st.last_ts, st.power_state.2) } }

/-! The corpus orchestrator (KindleLogs) and the checkpoint loader. -/

/-- The observable content of one successfully parsed KindleLog inside the
corpus: its basename, corrected start and end timestamps, the per-state
durations, the per-book event sequences, and the outgoing carried state. -/
structure KLog where
  name : String
  start : Int
  endTs : Int
  state_durations : List (String × Int)
  books : List (String × List BEvent)
  outState : KState
deriving DecidableEq, Repr

/-- KindleLogs (log_parser.py lines 809-813): the processed files and the
carried state. -/
structure KLogs where
  files : List KLog
  state : Option KState
deriving DecidableEq, Repr

/-- Ordering of logs by corrected start time (KindleLog.__cmp__,
log_parser.py lines 776-777). -/
def kle (a b : KLog) : Prop := a.start ≤ b.start

instance : DecidableRel kle := fun a b => inferInstanceAs (Decidable (a.start ≤ b.start))

instance : IsTotal KLog kle := ⟨fun a b => Int.le_total a.start b.start⟩

instance : IsTrans KLog kle := ⟨fun _ _ _ h1 h2 => le_trans h1 h2⟩

/-- self.files.sort() at log_parser.py line 848: a stable sort by start. -/
def sortByStart (l : List KLog) : List KLog := l.insertionSort kle

/-- Python 2 bytewise-lexicographic strict comparison of strings, on their
character lists (the filenames involved are ASCII, where codepoint order is
byte order). -/
def charListLt : List Char → List Char → Bool
  | _, [] => false
  | [], _ :: _ => true
  | a :: as, b :: bs =>
    decide (a < b) || (decide (a = b) && charListLt as bs)

/-- Python 2 comparison a < b of strings. -/
def pyStrLt (a b : String) : Bool := charListLt a.data b.data

/-- Python 2 comparison a <= b of strings. -/
def pyStrLe (a b : String) : Bool :=
  charListLt a.data b.data || decide (a.data = b.data)

/-- sorted(os.listdir(directory)) at log_parser.py line 823. -/
def sortStrings (l : List String) : List String :=
  l.insertionSort (fun a b => pyStrLe a b = true)

/-- Full split of a character list at underscores. -/
def splitU : List Char → List (List Char)
  | [] => [[]]
  | c :: cs =>
    match splitU cs with
    | [] => [[]]
    | p :: ps => if c = '_' then [] :: p :: ps else (c :: p) :: ps

/-- The components of logfile.split(sep, 2) for sep the underscore:
the full underscore split, of which the Python call keeps the first two
components and rejoins the rest. -/
def nameParts (f : String) : List String :=
  (splitU f.data).map (fun l => ⟨l⟩)

/-- Python unpacking of logfile.split(sep, 2) into three names succeeds only
when the name holds at least two underscores. -/
def wfName (f : String) : Bool :=
  decide (3 ≤ (nameParts f).length)

/-- The seq component of a logfile name. -/
def seqOf (f : String) : String := (nameParts f).getD 1 ""

/-- The datestr component of a logfile name (the remainder after the second
underscore, underscores preserved). -/
def dateOf (f : String) : String :=
  ⟨List.intercalate ['_'] ((nameParts f).drop 2 |>.map String.data)⟩

/-- logfile.startswith(the messages prefix) at log_parser.py line 824. -/
def isMsg (f : String) : Bool :=
  "messages_".data.isPrefixOf f.data

/-- The already-processed test at log_parser.py line 827: self.state is truthy
(it is an object, so: not None) and logfile is at most state.last_filename.
In Python 2 a string compared against None is never at most None. -/
def skipCond (st : Option KState) (f : String) : Bool :=
  match st with
  | none => false
  | some s =>
    match s.last_filename with
    | none => false
    | some lf => pyStrLe f lf

/-- Loop accumulator of KindleLogs.ProcessDirectory: files, carried state,
last_seq, and a poisoned flag.  The flag records that the Python run can no
longer return normally: an uncaught exception already escaped (tuple-unpack
ValueError on a malformed name, IndexError on pop from an empty file list) or
a KindleLog that failed to parse was left in self.files, in which case the
closing self.files.sort() / files[0].start of lines 848-851 re-raises its
ValueError.  After any of these the run aborts without storing a checkpoint,
so the model freezes the accumulator and ProcessDirectory returns an error. -/
structure PDAcc where
  files : List KLog
  state : Option KState
  last_seq : String × String
  poisoned : Bool
deriving Repr

/-- One iteration of the loop of KindleLogs.ProcessDirectory
(log_parser.py lines 823-847) over a directory entry f, parameterised by the
per-file parser (KindleLog construction plus the parse triggered by reading
log.state; an error outcome is the ValueError of a file with no valid
timestamp lines). -/
def pdStep (parse : String → Option KState → Except Unit KLog)
    (acc : PDAcc) (f : String) : PDAcc :=
  if acc.poisoned then acc
  else if isMsg f then
    if wfName f then
      let seq := seqOf f
      let date := dateOf f
      if skipCond acc.state f then { acc with last_seq := (seq, date) }
      else
        let acc1 :=
          if acc.last_seq.1 = seq ∧ pyStrLt acc.last_seq.2 date = true then
            match acc.files.getLast? with
            | none => { acc with poisoned := true }
            | some _ =>
              let fs := acc.files.dropLast
              match fs.getLast? with
              | none => { acc with files := fs, poisoned := true }
              | some prev => { acc with files := fs, state := some prev.outState }
          else acc
        if acc1.poisoned then acc1
        else
          match parse f acc1.state with
          | .error _ => { acc1 with poisoned := true }
          | .ok k => { acc1 with
                       files := acc1.files ++ [k]
                       state := some k.outState
                       last_seq := (seq, date) }
    else { acc with poisoned := true }
  else acc

/-- KindleLogs.ProcessDirectory (log_parser.py lines 815-851): fold the loop
over the sorted directory listing, then sort the files by start time and
report the range (which reads files[0] and files[-1], an IndexError on an
empty corpus).  A poisoned run surfaces as an error: the Python original can
only terminate abnormally there, leaving any previous checkpoint intact. -/
def ProcessDirectory (parse : String → Option KState → Except Unit KLog)
    (logs : KLogs) (dir : List String) : Except Unit KLogs :=
  let acc := (sortStrings dir).foldl (pdStep parse) ⟨logs.files, logs.state, ("", ""), false⟩
  if acc.poisoned then .error ()
  else
    match sortByStart acc.files with
    | [] => .error ()
    | f :: fs => .ok ⟨f :: fs, acc.state⟩

/-- The three observable shapes of the checkpoint file when LoadHistory runs:
absent, present but unreadable or corrupt (open or unpickling raises), or
present and valid. -/
inductive CheckpointFile
  | missing
  | unreadable
  | valid (logs : KLogs)

/-- LoadHistory (log_parser.py lines 908-918).  The Bool records whether the
failure branch logged through logger.fatal; that method is the plain logging
call critical (it writes a log record and returns, it neither raises nor
exits), after which the function falls off its end and returns None, exactly
as for a missing file.  The codomain has no aborting outcome because the
Python function always returns. -/
def LoadHistory (file : CheckpointFile) : Bool × Option KLogs :=
  match file with
  | .missing => (false, none)
  | .unreadable => (true, none)
  | .valid logs => (false, some logs)

/-! Line classification order in KindleLog._ParseFile. -/

/-- The four line classifiers a valid-timestamp line is offered to. -/
inductive Tracker
  | powerState
  | reboot
  | timezone
  | book
deriving DecidableEq, Repr, Fintype

/-- Which classifiers would consume a given line (return 1 from their
_Track... method), abstracting the regex and state tests of
_TrackPowerState, _TrackReboot, _TrackTimezone and _TrackBook. -/
structure LineMatch where
  powerMatches : Bool
  rebootMatches : Bool
  tzMatches : Bool
  bookMatches : Bool
deriving DecidableEq, Repr, Fintype

/-- Whether a given classifier would consume the line. -/
def Tracker.consumes (l : LineMatch) : Tracker → Bool
  | .powerState => l.powerMatches
  | .reboot => l.rebootMatches
  | .timezone => l.tzMatches
  | .book => l.bookMatches

/-- The offering order of the code (log_parser.py lines 405-412): the power
state tracker is consulted first, then reboot, timezone and book. -/
def Tracker.codePriority : Tracker → Nat
  | .powerState => 0
  | .reboot => 1
  | .timezone => 2
  | .book => 3

/-- log_parser.py lines 405-412: the classifier that consumes a line, if any.
Each tracker is consulted only while consumed is still 0, so the first
consuming classifier in the written order wins. -/
def dispatchLine (l : LineMatch) : Option Tracker :=
  if l.powerMatches then some .powerState
  else if l.rebootMatches then some .reboot
  else if l.tzMatches then some .timezone
  else if l.bookMatches then some .book
  else none

/-- The dispatch in the priority order the claim asserts (reboot first, then
power state, timezone, book).  Written from the claim for comparison with
dispatchLine, which is written from the code. -/
def claimOrderDispatch (l : LineMatch) : Option Tracker :=
  if l.rebootMatches then some .reboot
  else if l.powerMatches then some .powerState
  else if l.tzMatches then some .timezone
  else if l.bookMatches then some .book
  else none

/-! Concrete fixtures used by the claim theorems. -/

/-- The event sequence of the session-merge claim: PICK_UP at t0 = 1000 with
position 100, CLOSE at t0+300 with position 150, PICK_UP at t0+310 with
position 150, PUT_DOWN at t0+600 with position 300. -/
def c1Events : List BEvent :=
  [⟨1000, .PICK_UP, some 100⟩, ⟨1300, .CLOSE, some 150⟩,
   ⟨1310, .PICK_UP, some 150⟩, ⟨1600, .PUT_DOWN, some 300⟩]

/-- The same sequence with the intermediate CLOSE replaced by a PUT_DOWN, the
variant under which the continuation merge of _AppendRead actually runs. -/
def c1EventsPutDown : List BEvent :=
  [⟨1000, .PICK_UP, some 100⟩, ⟨1300, .PUT_DOWN, some 150⟩,
   ⟨1310, .PICK_UP, some 150⟩, ⟨1600, .PUT_DOWN, some 300⟩]

/-- Three in-file power transitions after state A was entered at t0: into B at
t1, into C at t2, and the end-of-file close-out transition at t3
(log_parser.py lines 418-419 call _StateTransition with the final timestamp
and no new state). -/
def powerScenario (t0 t1 t2 t3 : Int) : PowerAcc :=
  StateTransition
    (StateTransition
      (StateTransition ⟨(t0, "A"), [], fun _ => 0⟩ t1 (some "B"))
      t2 (some "C"))
    t3 none

/-- A per-file parser for the idempotence witness: every file parses to a
fixed result whose outgoing state records the file as last processed. -/
def pwParse : String → Option KState → Except Unit KLog := fun f _ =>
  .ok { name := f, start := 0, endTs := 10, state_durations := [], books := [],
        outState := { last_filename := some f, last_ts := 10,
                      power_state := (10, "ACTIVE") } }

/-- The corpus produced by running pwParse over the single-file directory of
the idempotence witness. -/
def pwLogs1 : KLogs :=
  ⟨[{ name := "messages_0001_20120101", start := 0, endTs := 10,
      state_durations := [], books := [],
      outState := { last_filename := some "messages_0001_20120101",
                    last_ts := 10, power_state := (10, "ACTIVE") } }],
   some { last_filename := some "messages_0001_20120101", last_ts := 10,
          power_state := (10, "ACTIVE") }⟩

/-! Theorems settling the claims. -/

/-- C1 (counterexample): on the event sequence PICK_UP at 1000 with position
100, CLOSE at 1300 with position 150, PICK_UP at 1310 with position 150,
PUT_DOWN at 1600 with position 300, the reads derivation does NOT return a
session with start position 100 or with about 590 seconds of read time: the
second PICK_UP resets the pending candidate (log_parser.py lines 285-289)
without emitting it, because only PUT_DOWN emits candidates, so the first 300
seconds are discarded and the single returned session is (1310, 150, 1600,
300, 290). -/
theorem reads_close_pickup_counterexample :
    KindleBook.reads c1Events = [⟨some 1310, some 150, some 1600, some 300, 290⟩]
    ∧ ∀ r ∈ KindleBook.reads c1Events, r.pos0 ≠ some 100 ∧ r.secs ≠ 590 := by
  decide

/-- C1 (amended): on the claimed sequence the reads derivation returns exactly
one session with start position 150, end position 300 and 290 seconds of
accumulated read time; the claimed merged session (start position 100, end
position 300, 590 seconds) is what the derivation returns when the CLOSE at
t0+300 is instead a PUT_DOWN, in which case the first candidate is emitted
and the second is merged into it as a continuation. -/
theorem reads_close_pickup_amended :
    KindleBook.reads c1Events = [⟨some 1310, some 150, some 1600, some 300, 290⟩]
    ∧ KindleBook.reads c1EventsPutDown
        = [⟨some 1000, some 100, some 1600, some 300, 590⟩] := by
  decide

/-- C2 (code bug): merging an incoming event whose timestamp 500 precedes the
last already-merged timestamp 1000 raises the fatal-level log (first
component true) but does NOT abort and DOES merge: logger.fatal is the plain
logging call critical, which returns normally, and UpdateEvents then extends
the event list with the backward events (log_parser.py lines 219-223), so
processing continues with a non-monotone sequence. -/
theorem updateEvents_backward_merges_anyway :
    KindleBook.UpdateEvents [⟨1000, .CLOSE, some 50⟩] [⟨500, .PICK_UP, some 10⟩]
      = (true, [⟨1000, .CLOSE, some 50⟩, ⟨500, .PICK_UP, some 10⟩]) := by
  decide

/-- C3 (counterexample): a file with zero valid-timestamp lines, none of
which matches the timestamp pattern, processed with carried-over state
(last_ts = 1000 from a previous file) is NOT a hard failure: each line is
skipped at line 392 and _ParseFile raises only when last_ts is still below
zero (log_parser.py lines 416-417), so here the file parses successfully,
updates last_filename to itself and accrues a final state-transition
duration, i.e. the carried state IS updated by it. -/
theorem parseFile_zero_valid_counterexample :
    ParseFileNoValidTs "messages_0002_20120102"
        ⟨some "messages_0001_20120101", 1000, (900, "ACTIVE")⟩
        [.noTsMatch, .noTsMatch, .noTsMatch, .noTsMatch, .noTsMatch]
      = .ok ⟨none, 1000, [(1000, "ACTIVE")], [("ACTIVE", 100)],
             ⟨some "messages_0002_20120102", 1000, (1000, "ACTIVE")⟩⟩ := by
  decide

/-- Any badFields line makes the specialised parse fail with the strptime
ValueError: the loop aborts at the first such line. -/
theorem parseFileNoValidTs_badFields (f : String) (st : KState) :
    ∀ lines : List InvalidLine, InvalidLine.badFields ∈ lines →
      ParseFileNoValidTs f st lines = .error .badTimestamp
  | [], h => absurd h (List.not_mem_nil _)
  | .noTsMatch :: rest, h => by
    have hr : InvalidLine.badFields ∈ rest := by
      rcases List.mem_cons.mp h with h1 | h1
      · exact absurd h1 (by decide)
      · exact h1
    simpa only [ParseFileNoValidTs] using
      parseFileNoValidTs_badFields f st rest hr
  | .badFields :: _, _ => rfl

/-- Without badFields lines the specialised parse ignores the lines entirely
and behaves as on an empty file. -/
theorem parseFileNoValidTs_skip (f : String) (st : KState) :
    ∀ lines : List InvalidLine, InvalidLine.badFields ∉ lines →
      ParseFileNoValidTs f st lines = ParseFileNoValidTs f st []
  | [], _ => rfl
  | .noTsMatch :: rest, h => by
    simpa only [ParseFileNoValidTs] using
      parseFileNoValidTs_skip f st rest (fun hr => h (List.mem_cons_of_mem _ hr))
  | .badFields :: _, h => absurd (List.mem_cons_self _ _) h

/-- C3 (amended): a file containing zero lines with a valid timestamp is a
hard failure in exactly two cases: some line matches the leading timestamp
pattern with out-of-range fields, which raises the strptime ValueError at the
first such line regardless of carried state; or no line matches the pattern
and the carried state holds no prior timestamp (cold start), which raises
the No-valid-lines ValueError.  Otherwise (carried prior timestamp, no
pattern-matching line) the file parses without error and updates the carried
state by recording itself as last processed file.  In the directory loop a
file failing with ValueError is caught and reported; the carried state and
the accumulated corpus are not updated by it and the loop continues with the
remaining entries, but the run is poisoned (the broken log object left in
self.files re-raises in the end-of-run sort), so it can only finish
abnormally, before aggregates or a new checkpoint are produced. -/
theorem parseFile_zero_valid_amended :
    (∀ (f : String) (st : KState) (lines : List InvalidLine),
        InvalidLine.badFields ∈ lines →
        ParseFileNoValidTs f st lines = .error .badTimestamp)
    ∧ (∀ (f : String) (st : KState) (lines : List InvalidLine),
        InvalidLine.badFields ∉ lines → st.last_ts < 0 →
        ParseFileNoValidTs f st lines = .error .noValidLines)
    ∧ (∀ (f : String) (st : KState) (lines : List InvalidLine),
        InvalidLine.badFields ∉ lines → 0 ≤ st.last_ts →
        ∃ out, ParseFileNoValidTs f st lines = .ok out
          ∧ out.outState.last_filename = some f
          ∧ out.outState.last_ts = st.last_ts
          ∧ out.endTs = st.last_ts)
    ∧ (∀ (parse : String → Option KState → Except Unit KLog) (acc : PDAcc)
          (g : String) (e : Unit),
        acc.poisoned = false → isMsg g = true → wfName g = true →
        skipCond acc.state g = false →
        ¬(acc.last_seq.1 = seqOf g ∧ pyStrLt acc.last_seq.2 (dateOf g) = true) →
        parse g acc.state = .error e →
        pdStep parse acc g = { acc with poisoned := true }) := by
  refine ⟨parseFileNoValidTs_badFields, ?_, ?_, ?_⟩
  · intro f st lines hnot h
    rw [parseFileNoValidTs_skip f st lines hnot]
    simp only [ParseFileNoValidTs]
    rw [if_pos h]
  · intro f st lines hnot h
    rw [parseFileNoValidTs_skip f st lines hnot]
    simp only [ParseFileNoValidTs]
    rw [if_neg (by omega)]
    exact ⟨_, rfl, rfl, rfl, rfl⟩
  · intro parse acc g e h0 hmsg hwf hskip hP hparse
    simp [pdStep, h0, hmsg, hwf, hskip, hP, hparse]

/-- C3 (witness for the amended theorem): with carried-over state, a file
whose second line matches the timestamp pattern with out-of-range fields is
a hard failure via the strptime ValueError. -/
theorem parseFile_zero_valid_amended_witness :
    ParseFileNoValidTs "messages_0003_20120103"
        ⟨some "messages_0002_20120102", 1000, (900, "ACTIVE")⟩
        [InvalidLine.noTsMatch, InvalidLine.badFields]
      = .error ParseError.badTimestamp :=
  parseFile_zero_valid_amended.1 "messages_0003_20120103"
    ⟨some "messages_0002_20120102", 1000, (900, "ACTIVE")⟩
    [InvalidLine.noTsMatch, InvalidLine.badFields] (by decide)

/-- C4 (code bug): loading a missing checkpoint is a silent cold start (no
fatal log, result None) as the claim says, but loading an existing unreadable
or corrupt checkpoint also returns None after writing the fatal-level log
record: logger.fatal is the plain logging call critical and the function then
returns None implicitly (log_parser.py lines 917-918), so the run proceeds as
a cold start instead of aborting. -/
theorem loadHistory_corrupt_cold_start :
    LoadHistory .missing = (false, none)
    ∧ LoadHistory .unreadable = (true, none) := by
  decide

/-- C5 (counterexample): on a line that both the power-state tracker and the
reboot tracker would consume, the code dispatch (power state first,
log_parser.py lines 405-412) hands the line to the power-state tracker,
whereas the order asserted by the claim (reboot first) would hand it to the
reboot tracker. -/
theorem dispatch_order_counterexample :
    dispatchLine ⟨true, true, false, false⟩ = some .powerState
    ∧ claimOrderDispatch ⟨true, true, false, false⟩ = some .reboot
    ∧ dispatchLine ⟨true, true, false, false⟩
        ≠ claimOrderDispatch ⟨true, true, false, false⟩ := by
  decide

/-- C5 (amended): each line is consumed by exactly the first consuming
classifier in the priority order power-state tracker, then reboot tracker,
then timezone tracker, then book tracker; a classifier receives the line only
if no higher-priority classifier consumes it. -/
theorem dispatch_order_amended :
    ∀ (l : LineMatch) (t : Tracker),
      dispatchLine l = some t ↔
        (t.consumes l = true
          ∧ ∀ t2 : Tracker, t2.codePriority < t.codePriority →
              t2.consumes l = false) := by
  decide

/-- C5 (witness for the amended theorem): the power-state tracker consumes a
line it matches regardless of the reboot tracker also matching. -/
theorem dispatch_order_amended_witness :
    dispatchLine ⟨true, true, false, false⟩ = some Tracker.powerState :=
  (dispatch_order_amended ⟨true, true, false, false⟩ .powerState).mpr (by decide)

/-- C6 (counterexample): durations 3600 and 10800 differ by exactly two whole
hours, so the claimed predicate (differ by a whole number of hours within the
tolerance) declares them matched, but MatchWithFuzzByHour only tries shifts
of one hour and returns no match. -/
theorem matchFuzz_two_hours_counterexample :
    specFuzzMatched 3600 10800 ∧ MatchWithFuzzByHour 3600 10800 = none :=
  ⟨Or.inr ⟨-2, by decide⟩, by decide⟩

/-- C6 (amended): the fuzz matcher declares the durations matched exactly when
they differ by less than 300 seconds, or when value equals ref plus one hour
within that tolerance, or when value equals ref minus one hour within that
tolerance with the downward shift only tried for ref above 3600 - one hour
either way, not an arbitrary whole number of hours.  When the exact
interpretation is within tolerance it is returned (as ref itself), preferred
over any hour-shifted interpretation. -/
theorem matchFuzz_amended :
    ∀ ref value : Int,
      ((MatchWithFuzzByHour ref value).isSome = true ↔
        (|ref - value| < 300 ∨ (3600 < ref ∧ |ref - 3600 - value| < 300)
          ∨ |ref + 3600 - value| < 300))
      ∧ (|ref - value| < 300 → MatchWithFuzzByHour ref value = some ref) := by
  intro ref value
  have habs : ∀ x y : Int, |x - y| < 300 ↔ (x - y < 300 ∧ y - x < 300) := by
    intro x y
    constructor
    · intro h
      constructor <;> [exact lt_of_abs_lt h; · have := neg_abs_le (x - y); omega]
    · intro h
      rw [abs_sub_lt_iff]
      omega
  constructor
  · unfold MatchWithFuzzByHour EqualWithFuzz
    split_ifs with h1 h2 h3 <;>
      simp_all [habs] <;> omega
  · intro h
    unfold MatchWithFuzzByHour
    rw [if_pos]
    unfold EqualWithFuzz
    simp [habs] at h ⊢
    omega

/-- C6 (witness for the amended theorem): 3700 is within the tolerance of
3600 and the exact value ref = 3600 is returned. -/
theorem matchFuzz_amended_witness :
    MatchWithFuzzByHour 3600 3700 = some 3600 :=
  (matchFuzz_amended 3600 3700).2 (by decide)

/-- C7: a candidate read is discarded when its accumulated read time is below
MIN_IN_HAND_SECS (2 minutes), and also when its end position is below its
start position (not forwards, under the Python 2 order in which None is below
every int) and its read time is below MIN_IN_HAND_REVERSE_SECS (10 minutes);
in particular a backward 5-minute candidate (300 seconds, position 200 down
to 100) is rejected while a backward 11-minute candidate (660 seconds) is
accepted. -/
theorem appendRead_acceptance :
    (∀ (rv : List KindleBook.PyRead) (read : KindleBook.PyRead),
        read.secs < KindleBook.MIN_IN_HAND_SECS →
        KindleBook.AppendRead rv read = rv)
    ∧ (∀ (rv : List KindleBook.PyRead) (read : KindleBook.PyRead),
        pyGeOpt read.pos1 read.pos0 = false →
        read.secs < KindleBook.MIN_IN_HAND_REVERSE_SECS →
        KindleBook.AppendRead rv read = rv)
    ∧ KindleBook.AppendRead [] ⟨some 0, some 200, some 300, some 100, 300⟩ = []
    ∧ KindleBook.AppendRead [] ⟨some 0, some 200, some 660, some 100, 660⟩
        = [⟨some 0, some 200, some 660, some 100, 660⟩] := by
  refine ⟨?_, ?_, by decide, by decide⟩
  · intro rv read h
    unfold KindleBook.AppendRead
    rw [if_pos h]
  · intro rv read hf h
    unfold KindleBook.AppendRead
    by_cases h2 : read.secs < KindleBook.MIN_IN_HAND_SECS
    · rw [if_pos h2]
    · rw [if_neg h2, if_pos ⟨hf, h⟩]

/-- C7 (witness): a 30-second forward candidate is discarded by the first
threshold. -/
theorem appendRead_acceptance_witness :
    KindleBook.AppendRead [] ⟨some 0, some 1, some 30, some 2, 30⟩ = [] :=
  appendRead_acceptance.1 [] ⟨some 0, some 1, some 30, some 2, 30⟩ (by decide)

/-- C8: after state A entered at t0, transitions into B at t1, into C at t2
and the end-of-file close-out at t3 attribute exactly t1-t0 to A, t2-t1 to B
and t3-t2 to C, each keyed by the label of the state active immediately
before the transition; no other state accrues anything, and the recorded
transition list is (t1,B), (t2,C), (t3,C). -/
theorem stateTransition_durations :
    ∀ t0 t1 t2 t3 : Int,
      (powerScenario t0 t1 t2 t3).state_durations "A" = t1 - t0
      ∧ (powerScenario t0 t1 t2 t3).state_durations "B" = t2 - t1
      ∧ (powerScenario t0 t1 t2 t3).state_durations "C" = t3 - t2
      ∧ (∀ s : String, s ≠ "A" → s ≠ "B" → s ≠ "C" →
          (powerScenario t0 t1 t2 t3).state_durations s = 0)
      ∧ (powerScenario t0 t1 t2 t3).states = [(t1, "B"), (t2, "C"), (t3, "C")] := by
  intro t0 t1 t2 t3
  refine ⟨?_, ?_, ?_, ?_, ?_⟩ <;>
    simp [powerScenario, StateTransition]
  intro s h1 h2 h3
  simp [h1, h2, h3]

/-- C8 (witness): with transitions at 0, 10, 30 and end-of-file at 70, a
state D that never occurs accrues nothing. -/
theorem stateTransition_durations_witness :
    (powerScenario 0 10 30 70).state_durations "D" = 0 :=
  (stateTransition_durations 0 10 30 70).2.2.2.1 "D"
    (by decide) (by decide) (by decide)

/-- C10: whenever the coalescing conditions do not hold (the new event is
appended, not merged into the last event), the appended event carries the
position of the previous last event; in particular PutDown, which never
supplies a position, always appends a PUT_DOWN event carrying the position of
the event immediately before it. -/
theorem coalesce_append_position :
    (∀ (evs : List BEvent) (ts : Int) (ne : EType) (mo : Option EType)
        (fz : Int) (h : evs ≠ []),
        EqualWithFuzz (evs.getLast h).ts ts 1 = false →
        ((some (evs.getLast h).etype == mo)
          && EqualWithFuzz (evs.getLast h).ts ts fz) = false →
        KindleBook.CoalesceLast evs ts ne mo fz
          = evs ++ [⟨ts, ne, (evs.getLast h).pos⟩])
    ∧ (∀ (evs : List BEvent) (ts : Int) (h : evs ≠ []),
        EqualWithFuzz (evs.getLast h).ts ts 1 = false →
        ((some (evs.getLast h).etype == some EType.CLOSE)
          && EqualWithFuzz (evs.getLast h).ts ts 15) = false →
        KindleBook.PutDown evs ts
          = evs ++ [⟨ts, EType.PUT_DOWN, (evs.getLast h).pos⟩]) := by
  have key : ∀ (evs : List BEvent) (ts : Int) (ne : EType) (mo : Option EType)
      (fz : Int) (h : evs ≠ []),
      EqualWithFuzz (evs.getLast h).ts ts 1 = false →
      ((some (evs.getLast h).etype == mo)
        && EqualWithFuzz (evs.getLast h).ts ts fz) = false →
      KindleBook.CoalesceLast evs ts ne mo fz
        = evs ++ [⟨ts, ne, (evs.getLast h).pos⟩] := by
    intro evs ts ne mo fz h h1 h2
    unfold KindleBook.CoalesceLast
    rw [List.getLast?_eq_getLast_of_ne_nil h]
    simp only [h1, h2, Bool.false_eq_true, if_false]
  exact ⟨key, fun evs ts h h1 h2 => key evs ts .PUT_DOWN (some .CLOSE) 15 h h1 h2⟩

/-- C10 (witness): putting down after an OPEN at position 42 appends a
PUT_DOWN event carrying position 42. -/
theorem coalesce_append_position_witness :
    KindleBook.PutDown [⟨0, EType.OPEN, some 42⟩] 100
      = [⟨0, EType.OPEN, some 42⟩, ⟨100, EType.PUT_DOWN, some 42⟩] := by
  have h := coalesce_append_position.2 [⟨0, EType.OPEN, some 42⟩] 100
    (by decide) (by decide) (by decide)
  simpa using h

/-! Order lemmas for the Python string comparison, and the loop invariants of
ProcessDirectory, leading to the idempotence theorem. -/

theorem charListLt_trans : ∀ a b c : List Char,
    charListLt a b = true → charListLt b c = true → charListLt a c = true
  | _, [], _, h1, _ => by simp [charListLt] at h1
  | _, _ :: _, [], _, h2 => by simp [charListLt] at h2
  | [], _ :: _, _ :: _, _, _ => by simp [charListLt]
  | x :: xs, y :: ys, z :: zs, h1, h2 => by
    simp only [charListLt, Bool.or_eq_true, Bool.and_eq_true,
      decide_eq_true_eq] at h1 h2 ⊢
    rcases h1 with h1 | ⟨he1, h1⟩
    · rcases h2 with h2 | ⟨he2, h2⟩
      · exact Or.inl (lt_trans h1 h2)
      · exact Or.inl (by rw [← he2]; exact h1)
    · rcases h2 with h2 | ⟨he2, h2⟩
      · exact Or.inl (by rw [he1]; exact h2)
      · exact Or.inr ⟨he1.trans he2, charListLt_trans xs ys zs h1 h2⟩

theorem charListLt_conn : ∀ a b : List Char,
    charListLt a b = false → a ≠ b → charListLt b a = true
  | [], [], _, hne => absurd rfl hne
  | [], _ :: _, h, _ => by simp [charListLt] at h
  | _ :: _, [], _, _ => by simp [charListLt]
  | x :: xs, y :: ys, h, hne => by
    simp only [charListLt, Bool.or_eq_false_iff, Bool.and_eq_false_iff,
      decide_eq_false_iff_not] at h
    obtain ⟨hlt, hrest⟩ := h
    simp only [charListLt, Bool.or_eq_true, Bool.and_eq_true, decide_eq_true_eq]
    rcases lt_trichotomy x y with hxy | hxy | hxy
    · exact absurd hxy hlt
    · have hxs : xs ≠ ys := fun e => hne (by rw [hxy, e])
      rcases hrest with hrest | hrest
      · exact absurd hxy hrest
      · exact Or.inr ⟨hxy.symm, charListLt_conn xs ys hrest hxs⟩
    · exact Or.inl hxy

theorem pyStrLe_refl (a : String) : pyStrLe a a = true := by
  simp [pyStrLe]

theorem pyStrLe_chain {f g lf : String} (h1 : pyStrLe f lf = true)
    (h2 : pyStrLe g lf = false) : pyStrLe f g = true := by
  unfold pyStrLe at h1 h2 ⊢
  simp only [Bool.or_eq_true, decide_eq_true_eq] at h1 ⊢
  simp only [Bool.or_eq_false_iff, decide_eq_false_iff_not] at h2
  obtain ⟨h2l, h2e⟩ := h2
  have hlt : charListLt lf.data g.data = true :=
    charListLt_conn _ _ h2l h2e
  rcases h1 with h1 | h1
  · exact Or.inl (charListLt_trans _ _ _ h1 hlt)
  · exact Or.inl (by rw [h1]; exact hlt)

theorem skipCond_parts {st : Option KState} {f : String}
    (h : skipCond st f = true) :
    ∃ s lf, st = some s ∧ s.last_filename = some lf ∧ pyStrLe f lf = true := by
  cases st with
  | none => simp [skipCond] at h
  | some s =>
    cases hlf : s.last_filename with
    | none => simp [skipCond, hlf] at h
    | some lf =>
      simp only [skipCond, hlf] at h
      exact ⟨s, lf, rfl, hlf, h⟩

theorem skipCond_after {st : Option KState} {f g : String} {k : KLog}
    (hf : skipCond st f = true) (hg : skipCond st g = false)
    (hk : k.outState.last_filename = some g) :
    skipCond (some k.outState) f = true := by
  obtain ⟨s, lf, rfl, hlf, hle⟩ := skipCond_parts hf
  have hgle : pyStrLe g lf = false := by simpa [skipCond, hlf] using hg
  simp only [skipCond, hk]
  exact pyStrLe_chain hle hgle

theorem sortByStart_idem (l : List KLog) :
    sortByStart (sortByStart l) = sortByStart l :=
  List.Sorted.insertionSort_eq (List.sorted_insertionSort kle l)

theorem pdStep_frozen (parse : String → Option KState → Except Unit KLog)
    (acc : PDAcc) (g : String) (h : acc.poisoned = true) :
    pdStep parse acc g = acc := by
  simp [pdStep, h]

theorem pdStep_unpoisoned (parse : String → Option KState → Except Unit KLog)
    (acc : PDAcc) (g : String)
    (h : (pdStep parse acc g).poisoned = false) : acc.poisoned = false := by
  by_cases h0 : acc.poisoned = true
  · rw [pdStep_frozen parse acc g h0] at h
    exact h
  · exact Bool.eq_false_iff.mpr h0

theorem pdStep_mono (parse : String → Option KState → Except Unit KLog)
    (hp : ∀ f st k, parse f st = .ok k → k.outState.last_filename = some f)
    (acc : PDAcc) (g f : String)
    (hpois : (pdStep parse acc g).poisoned = false)
    (hf : skipCond acc.state f = true) :
    skipCond (pdStep parse acc g).state f = true := by
  have h0 : acc.poisoned = false := pdStep_unpoisoned parse acc g hpois
  by_cases hmsg : isMsg g = true
  · by_cases hwf : wfName g = true
    · by_cases hskip : skipCond acc.state g = true
      · have hstep : pdStep parse acc g = { acc with last_seq := (seqOf g, dateOf g) } := by
          simp [pdStep, h0, hmsg, hwf, hskip]
        rw [hstep]
        exact hf
      · have hgle : skipCond acc.state g = false := Bool.eq_false_iff.mpr hskip
        by_cases hP : acc.last_seq.1 = seqOf g ∧ pyStrLt acc.last_seq.2 (dateOf g) = true
        · cases hl : acc.files.getLast? with
          | none =>
            have hstep : pdStep parse acc g = { acc with poisoned := true } := by
              simp [pdStep, h0, hmsg, hwf, hskip, hP, hl]
            rw [hstep] at hpois
            simp at hpois
          | some last =>
            cases hl2 : acc.files.dropLast.getLast? with
            | none =>
              have hstep : pdStep parse acc g
                  = { acc with files := acc.files.dropLast, poisoned := true } := by
                simp [pdStep, h0, hmsg, hwf, hskip, hP, hl, hl2]
              rw [hstep] at hpois
              simp at hpois
            | some prev =>
              cases hparse : parse g (some prev.outState) with
              | error e =>
                have hstep : pdStep parse acc g
                    = { acc with
                        files := acc.files.dropLast
                        state := some prev.outState
                        poisoned := true } := by
                  simp [pdStep, h0, hmsg, hwf, hskip, hP, hl, hl2, hparse]
                rw [hstep] at hpois
                simp at hpois
              | ok k =>
                have hstep : (pdStep parse acc g).state = some k.outState := by
                  simp [pdStep, h0, hmsg, hwf, hskip, hP, hl, hl2, hparse]
                rw [hstep]
                exact skipCond_after hf hgle (hp g (some prev.outState) k hparse)
        · cases hparse : parse g acc.state with
          | error e =>
            have hstep : pdStep parse acc g = { acc with poisoned := true } := by
              simp [pdStep, h0, hmsg, hwf, hskip, hP, hparse]
            rw [hstep] at hpois
            simp at hpois
          | ok k =>
            have hstep : (pdStep parse acc g).state = some k.outState := by
              simp [pdStep, h0, hmsg, hwf, hskip, hP, hparse]
            rw [hstep]
            exact skipCond_after hf hgle (hp g acc.state k hparse)
    · have hstep : pdStep parse acc g = { acc with poisoned := true } := by
        simp [pdStep, h0, hmsg, hwf]
      rw [hstep] at hpois
      simp at hpois
  · have hstep : pdStep parse acc g = acc := by
      simp [pdStep, h0, hmsg]
    rw [hstep]
    exact hf

theorem pdStep_inv (parse : String → Option KState → Except Unit KLog)
    (hp : ∀ f st k, parse f st = .ok k → k.outState.last_filename = some f)
    (acc : PDAcc) (g : String)
    (hpois : (pdStep parse acc g).poisoned = false)
    (hmsg : isMsg g = true) :
    wfName g = true ∧ skipCond (pdStep parse acc g).state g = true := by
  have h0 : acc.poisoned = false := pdStep_unpoisoned parse acc g hpois
  by_cases hwf : wfName g = true
  · refine ⟨hwf, ?_⟩
    by_cases hskip : skipCond acc.state g = true
    · have hstep : pdStep parse acc g = { acc with last_seq := (seqOf g, dateOf g) } := by
        simp [pdStep, h0, hmsg, hwf, hskip]
      rw [hstep]
      exact hskip
    · by_cases hP : acc.last_seq.1 = seqOf g ∧ pyStrLt acc.last_seq.2 (dateOf g) = true
      · cases hl : acc.files.getLast? with
        | none =>
          have hstep : pdStep parse acc g = { acc with poisoned := true } := by
            simp [pdStep, h0, hmsg, hwf, hskip, hP, hl]
          rw [hstep] at hpois
          simp at hpois
        | some last =>
          cases hl2 : acc.files.dropLast.getLast? with
          | none =>
            have hstep : pdStep parse acc g
                = { acc with files := acc.files.dropLast, poisoned := true } := by
              simp [pdStep, h0, hmsg, hwf, hskip, hP, hl, hl2]
            rw [hstep] at hpois
            simp at hpois
          | some prev =>
            cases hparse : parse g (some prev.outState) with
            | error e =>
              have hstep : pdStep parse acc g
                  = { acc with
                      files := acc.files.dropLast
                      state := some prev.outState
                      poisoned := true } := by
                simp [pdStep, h0, hmsg, hwf, hskip, hP, hl, hl2, hparse]
              rw [hstep] at hpois
              simp at hpois
            | ok k =>
              have hstep : (pdStep parse acc g).state = some k.outState := by
                simp [pdStep, h0, hmsg, hwf, hskip, hP, hl, hl2, hparse]
              rw [hstep]
              simp only [skipCond, hp g (some prev.outState) k hparse]
              exact pyStrLe_refl g
      · cases hparse : parse g acc.state with
        | error e =>
          have hstep : pdStep parse acc g = { acc with poisoned := true } := by
            simp [pdStep, h0, hmsg, hwf, hskip, hP, hparse]
          rw [hstep] at hpois
          simp at hpois
        | ok k =>
          have hstep : (pdStep parse acc g).state = some k.outState := by
            simp [pdStep, h0, hmsg, hwf, hskip, hP, hparse]
          rw [hstep]
          simp only [skipCond, hp g acc.state k hparse]
          exact pyStrLe_refl g
  · have hstep : pdStep parse acc g = { acc with poisoned := true } := by
      simp [pdStep, h0, hmsg, hwf]
    rw [hstep] at hpois
    simp at hpois

theorem pdLoop_frozen (parse : String → Option KState → Except Unit KLog) :
    ∀ (L : List String) (acc : PDAcc), acc.poisoned = true →
      L.foldl (pdStep parse) acc = acc
  | [], _, _ => rfl
  | g :: L, acc, h => by
    rw [List.foldl_cons, pdStep_frozen parse acc g h]
    exact pdLoop_frozen parse L acc h

theorem pdLoop_unpoisoned (parse : String → Option KState → Except Unit KLog)
    (L : List String) (acc : PDAcc)
    (h : (L.foldl (pdStep parse) acc).poisoned = false) : acc.poisoned = false := by
  by_cases h0 : acc.poisoned = true
  · rw [pdLoop_frozen parse L acc h0] at h
    exact h
  · exact Bool.eq_false_iff.mpr h0

theorem pdLoop_mono (parse : String → Option KState → Except Unit KLog)
    (hp : ∀ f st k, parse f st = .ok k → k.outState.last_filename = some f) :
    ∀ (L : List String) (acc : PDAcc) (f : String),
      (L.foldl (pdStep parse) acc).poisoned = false →
      skipCond acc.state f = true →
      skipCond (L.foldl (pdStep parse) acc).state f = true
  | [], _, _, _, hf => hf
  | g :: L, acc, f, hpois, hf => by
    rw [List.foldl_cons] at hpois ⊢
    have h1 : (pdStep parse acc g).poisoned = false :=
      pdLoop_unpoisoned parse L _ hpois
    exact pdLoop_mono parse hp L _ f hpois (pdStep_mono parse hp acc g f h1 hf)

theorem pdLoop_inv (parse : String → Option KState → Except Unit KLog)
    (hp : ∀ f st k, parse f st = .ok k → k.outState.last_filename = some f) :
    ∀ (L : List String) (acc : PDAcc),
      (L.foldl (pdStep parse) acc).poisoned = false →
      ∀ f ∈ L, isMsg f = true →
        wfName f = true ∧ skipCond (L.foldl (pdStep parse) acc).state f = true
  | [], _, _, f, hmem, _ => absurd hmem (List.not_mem_nil f)
  | g :: L, acc, hpois, f, hmem, hmsg => by
    rw [List.foldl_cons] at hpois ⊢
    rcases List.mem_cons.mp hmem with rfl | hmem2
    · have h1 : (pdStep parse acc f).poisoned = false :=
        pdLoop_unpoisoned parse L _ hpois
      obtain ⟨hwf, hskip⟩ := pdStep_inv parse hp acc f h1 hmsg
      exact ⟨hwf, pdLoop_mono parse hp L _ f hpois hskip⟩
    · exact pdLoop_inv parse hp L _ hpois f hmem2 hmsg

theorem pdLoop_noop (parse : String → Option KState → Except Unit KLog) :
    ∀ (L : List String) (acc : PDAcc),
      acc.poisoned = false →
      (∀ f ∈ L, isMsg f = true → wfName f = true ∧ skipCond acc.state f = true) →
      (L.foldl (pdStep parse) acc).files = acc.files
      ∧ (L.foldl (pdStep parse) acc).state = acc.state
      ∧ (L.foldl (pdStep parse) acc).poisoned = false
  | [], acc, h0, _ => ⟨rfl, rfl, h0⟩
  | g :: L, acc, h0, hall => by
    rw [List.foldl_cons]
    by_cases hmsg : isMsg g = true
    · obtain ⟨hwf, hskip⟩ := hall g (List.mem_cons_self g L) hmsg
      have hstep : pdStep parse acc g = { acc with last_seq := (seqOf g, dateOf g) } := by
        simp [pdStep, h0, hmsg, hwf, hskip]
      rw [hstep]
      exact pdLoop_noop parse L { acc with last_seq := (seqOf g, dateOf g) } h0
        (fun f hf hm => hall f (List.mem_cons_of_mem g hf) hm)
    · have hstep : pdStep parse acc g = acc := by
        simp [pdStep, h0, hmsg]
      rw [hstep]
      exact pdLoop_noop parse L acc h0
        (fun f hf hm => hall f (List.mem_cons_of_mem g hf) hm)

/-- C9: running the directory orchestrator a second time over the same
directory, starting from the corpus produced by a completed first run (which
is what the checkpoint stores and LoadHistory returns), changes nothing: the
invariant of a completed run is that every well-formed messages file in the
directory compares at most the carried last_filename, so the second run skips
every file at the already-processed check, and the final sort is the identity
on the already-sorted file list.  Since the result object is unchanged, the
stored checkpoint and the aggregated per-state durations and per-book session
results derived from it are identical to those after the first run.  The
hypothesis on parse is the fact, established by _ParseFile at log_parser.py
line 423, that a successful parse records the parsed file as last_filename of
the outgoing state. -/
theorem processDirectory_idempotent
    (parse : String → Option KState → Except Unit KLog)
    (logs0 logs1 : KLogs) (dir : List String)
    (hp : ∀ f st k, parse f st = .ok k → k.outState.last_filename = some f)
    (h1 : ProcessDirectory parse logs0 dir = .ok logs1) :
    ProcessDirectory parse logs1 dir = .ok logs1 := by
  unfold ProcessDirectory at h1 ⊢
  by_cases hpois :
      ((sortStrings dir).foldl (pdStep parse)
        ⟨logs0.files, logs0.state, ("", ""), false⟩).poisoned = true
  · rw [if_pos hpois] at h1
    exact absurd h1 (by simp)
  · rw [if_neg hpois] at h1
    have hpois2 :
        ((sortStrings dir).foldl (pdStep parse)
          ⟨logs0.files, logs0.state, ("", ""), false⟩).poisoned = false :=
      Bool.eq_false_iff.mpr hpois
    cases hsort : sortByStart ((sortStrings dir).foldl (pdStep parse)
        ⟨logs0.files, logs0.state, ("", ""), false⟩).files with
    | nil =>
      rw [hsort] at h1
      exact absurd h1 (by simp)
    | cons a fs =>
      rw [hsort] at h1
      have hlogs : logs1 = ⟨a :: fs,
          ((sortStrings dir).foldl (pdStep parse)
            ⟨logs0.files, logs0.state, ("", ""), false⟩).state⟩ :=
        (Except.ok.inj h1).symm
      have hinv := pdLoop_inv parse hp (sortStrings dir)
        ⟨logs0.files, logs0.state, ("", ""), false⟩ hpois2
      have hall : ∀ f ∈ sortStrings dir, isMsg f = true →
          wfName f = true ∧
          skipCond (PDAcc.state ⟨logs1.files, logs1.state, ("", ""), false⟩) f = true := by
        intro f hf hm
        refine ⟨(hinv f hf hm).1, ?_⟩
        have : (PDAcc.state ⟨logs1.files, logs1.state, ("", ""), false⟩)
            = ((sortStrings dir).foldl (pdStep parse)
                ⟨logs0.files, logs0.state, ("", ""), false⟩).state := by
          rw [hlogs]
        rw [this]
        exact (hinv f hf hm).2
      obtain ⟨hfiles, hstate, hpois3⟩ := pdLoop_noop parse (sortStrings dir)
        ⟨logs1.files, logs1.state, ("", ""), false⟩ rfl hall
      rw [if_neg (by rw [hpois3]; exact Bool.false_ne_true)]
      rw [hfiles]
      have hfiles1 : logs1.files = a :: fs := by rw [hlogs]
      have hidem : sortByStart logs1.files = a :: fs := by
        rw [hfiles1, ← hsort, sortByStart_idem, hsort]
      rw [hidem, hstate]
      have hstate1 : (PDAcc.state ⟨logs1.files, logs1.state, ("", ""), false⟩)
          = logs1.state := rfl
      rw [hstate1, hlogs]

/-- C9 (witness): a concrete second run over a one-file directory returns the
first run result unchanged. -/
theorem processDirectory_idempotent_witness :
    ProcessDirectory pwParse pwLogs1 ["messages_0001_20120101"] = .ok pwLogs1 :=
  processDirectory_idempotent pwParse ⟨[], none⟩ pwLogs1 ["messages_0001_20120101"]
    (fun f st k h => by
      simp only [pwParse] at h
      rw [← Except.ok.inj h])
    (by decide)

end LogParser
